import Mathlib

/-!
Shallow embedding of the bim2sim topology-aggregation engine
(`MainLib/bim2sim/kernel/aggregation.py` and the reduction driver in
`MainLib/bim2sim/task/hvac/hvac.py`).

Quantities (lengths, diameters, flows, heights, powers, coordinates) are
modelled as rationals `ℚ`; a Python attribute value that may be `None` is
modelled as `Option ℚ`, with Python truthiness given by `truthy` (a pint
quantity with magnitude 0 is falsy, like `None`).  A Python function that can
raise is modelled in `Except String`, the string naming the exception.
-/

namespace Bim2sim

/-- Truthiness of a Python attribute value: `none` models `None`; a present
quantity is truthy iff its magnitude is nonzero. -/
def truthy : Option ℚ → Bool
  | none => false
  | some v => v != 0

/-- A pipe-like member as seen by `PipeStrand._calc_avg`:
`getattr(pipe, "length")` and `getattr(pipe, "diameter")` may yield `None`
(modelled as `none`) or a quantity. -/
structure PipeElement where
  length : Option ℚ
  diameter : Option ℚ
  deriving DecidableEq

/-- Loop state of `PipeStrand._calc_avg`: the running totals
`total_length` and `diameter_times_length`. -/
structure PSState where
  total_length : ℚ
  diameter_times_length : ℚ
  deriving DecidableEq

/-- One iteration of the loop in `PipeStrand._calc_avg`: a member whose
`length` or `diameter` is falsy is skipped (`continue`, with a warning log);
otherwise both running sums are updated. -/
def psStep (s : PSState) (pipe : PipeElement) : PSState :=
  if truthy pipe.length && truthy pipe.diameter then
    { total_length := s.total_length + pipe.length.getD 0
      diameter_times_length :=
        s.diameter_times_length + pipe.diameter.getD 0 * pipe.length.getD 0 }
  else
    s

/-- The result dict of `PipeStrand._calc_avg`. -/
structure PipeStrandAvg where
  length : ℚ
  diameter : ℚ
  deriving DecidableEq

/-- `PipeStrand._calc_avg` (kernel/aggregation.py): iterates over the
aggregated elements accumulating `total_length` and `diameter_times_length`,
then sets `avg_diameter = diameter_times_length / total_length` when
`total_length != 0` (it stays `0` otherwise). -/
def PipeStrand.calc_avg (elements : List PipeElement) : PipeStrandAvg :=
  let s := elements.foldl psStep { total_length := 0, diameter_times_length := 0 }
  { length := s.total_length
    diameter :=
      if s.total_length ≠ 0 then s.diameter_times_length / s.total_length else 0 }

/-- The members that `PipeStrand._calc_avg` does not skip: both `length` and
`diameter` truthy. -/
def psIncluded (elements : List PipeElement) : List PipeElement :=
  elements.filter (fun e => truthy e.length && truthy e.diameter)

/-- A member of a `ParallelPump` aggregate as seen by the kernel
`ParallelPump._calc_avg`.  An item with `"Pump" in item.ifc_type` has its four
attributes read unconditionally (constructor `pump`); any other item
(constructor `strand`) is probed with `hasattr` for `length` and `diameter`:
the outer `Option` models attribute presence, the inner one the attribute
value (which may be `None`). -/
inductive PumpItem where
  | pump (rated_volume_flow rated_power rated_height diameter : ℚ)
  | strand (length diameter : Option (Option ℚ))
  deriving DecidableEq

/-- Loop state of the kernel `ParallelPump._calc_avg`. -/
structure PPState where
  max_rated_height : ℚ
  total_rated_volume_flow : ℚ
  total_diameter_sq : ℚ
  total_length : ℚ
  diameter_times_length : ℚ
  total_rated_power : ℚ
  deriving DecidableEq

/-- One iteration of the loop in the kernel `ParallelPump._calc_avg`.
For a pump: flow and power are added to the running totals, the running
`max_rated_height` is replaced by a smaller height once it is nonzero
(so it ends up the minimum), and the squared diameter is accumulated.
For any other element: when both `length` and `diameter` attributes exist
and are truthy they feed the pipe-strand sums, otherwise the item is
ignored (logged). -/
def ppStep (s : PPState) (item : PumpItem) : PPState :=
  match item with
  | .pump rvf rp rh d =>
      { s with
        total_rated_volume_flow := s.total_rated_volume_flow + rvf
        total_rated_power := s.total_rated_power + rp
        max_rated_height :=
          if s.max_rated_height ≠ 0 then
            if rh < s.max_rated_height then rh else s.max_rated_height
          else rh
        total_diameter_sq := s.total_diameter_sq + d ^ 2 }
  | .strand length diameter =>
      match diameter, length with
      | some dval, some lval =>
          if truthy lval && truthy dval then
            { s with
              total_length := s.total_length + lval.getD 0
              diameter_times_length :=
                s.diameter_times_length + dval.getD 0 * lval.getD 0 }
          else s
      | _, _ => s

/-- The result dict of the kernel `ParallelPump._calc_avg`.  `diameter_sq`
holds the sum of squared pump diameters; the source returns
`math.sqrt` of it as the `diameter` entry. -/
structure ParallelPumpAvg where
  rated_power : ℚ
  rated_height : ℚ
  rated_volume_flow : ℚ
  diameter_sq : ℚ
  length : ℚ
  diameter_strand : ℚ
  deriving DecidableEq

/-- The kernel `ParallelPump._calc_avg` (aggregation.py lines 556-607): folds
`ppStep` over the elements starting from all-zero state and assembles the
result dict, with `diameter_strand = diameter_times_length / total_length`
when `total_length != 0` (else `0`). -/
def ParallelPump.calc_avg (elements : List PumpItem) : ParallelPumpAvg :=
  let s := elements.foldl ppStep
    { max_rated_height := 0, total_rated_volume_flow := 0, total_diameter_sq := 0
      total_length := 0, diameter_times_length := 0, total_rated_power := 0 }
  { rated_power := s.total_rated_power
    rated_height := s.max_rated_height
    rated_volume_flow := s.total_rated_volume_flow
    diameter_sq := s.total_diameter_sq
    length := s.total_length
    diameter_strand :=
      if s.total_length ≠ 0 then s.diameter_times_length / s.total_length else 0 }

/-- The `rated_volume_flow` attributes of the pump members, in order. -/
def pumpVolumeFlows (items : List PumpItem) : List ℚ :=
  items.filterMap fun i =>
    match i with
    | .pump rvf _ _ _ => some rvf
    | .strand _ _ => none

/-- The `rated_power` attributes of the pump members, in order. -/
def pumpPowers (items : List PumpItem) : List ℚ :=
  items.filterMap fun i =>
    match i with
    | .pump _ rp _ _ => some rp
    | .strand _ _ => none

/-- The `rated_height` attributes of the pump members, in order. -/
def pumpHeights (items : List PumpItem) : List ℚ :=
  items.filterMap fun i =>
    match i with
    | .pump _ _ rh _ => some rh
    | .strand _ _ => none

/-- The update the kernel `ParallelPump._calc_avg` applies to
`max_rated_height` for one pump of rated height `h`. -/
def hstep (m h : ℚ) : ℚ :=
  if m ≠ 0 then (if h < m then h else m) else h

/-- `hstep` folded over the pump heights: the value `max_rated_height` takes
after the loop. -/
def hfold : ℚ → List ℚ → ℚ
  | m, [] => m
  | m, h :: t => hfold (hstep m h) t

/-- The spec example for parallel pumps: two pumps with `rated_power` 5 kW
each, rated heights 12 m and 10 m, rated volume flows 8 and 8 m³/h
(pump diameters 30). -/
def c1Pumps : List PumpItem := [.pump 8 5 12 30, .pump 8 5 10 30]

/-! ### The reduction driver `Reduce.run` (task/hvac/hvac.py) -/

/-- The match loop of `Reduce.run` for one rule: for each match (with its
metadata) of the rule, aggregate construction `agg_class(match, **meta)` is
attempted inside `try`; a raised exception (`Except.error`) is caught,
logged and the match is skipped, otherwise (`else` branch) `graph.merge` is
applied with the aggregate's replacement mapping and the per-rule counter
`i` is incremented.  `G` is the graph state, `M` a match paired with its
metadata, `A` a constructed aggregate. -/
def applyMatches {M G A : Type} (construct : M → Except String A)
    (merge : G → A → G) : G → Nat → List M → G × Nat
  | g, i, [] => (g, i)
  | g, i, m :: rest =>
    match construct m with
    | .error _ => applyMatches construct merge g i rest
    | .ok a => applyMatches construct merge (merge g a) (i + 1) rest

/-- An aggregation rule as consumed by the driver loop: its constructor and
the matches returned by `find_matches` (metadata already paired in). -/
structure AggRule (M A : Type) where
  construct : M → Except String A
  matchList : List M

/-- The rule loop of `Reduce.run`: applies each rule's matches in order over
the shared graph, collecting the per-rule statistics counters. -/
def reduceRun {M G A : Type} (merge : G → A → G) : G → List (AggRule M A) → G × List Nat
  | g, [] => (g, [])
  | g, r :: rs =>
    let p := applyMatches r.construct merge g 0 r.matchList
    let q := reduceRun merge p.1 rs
    (q.1, p.2 :: q.2)

/-- Concrete instantiation data for the driver theorems: a constructor that
fails exactly on match `0`. -/
def exConstruct : Nat → Except String Nat :=
  fun n => if n = 0 then .error "Instantiation failed" else .ok n

/-- Concrete merge operation for the driver theorems. -/
def exMerge : Nat → Nat → Nat := fun g a => g + a

/-! ### `AggregationPort` (kernel/aggregation.py) -/

/-- A Python value reaching `AggregationPort`: either a port object (carrying
a `position` attribute) or a list of such values. -/
inductive PyObj where
  | portObj (position : ℚ × ℚ × ℚ)
  | listObj (items : List PyObj)

/-- The `originals` normalization in `AggregationPort.__init__`:
`if not type(originals) == list: self.originals = [originals]`, so a single
original is wrapped into a one-element list and a list is stored as is. -/
def AggregationPort.initOriginals (originals : PyObj) : PyObj :=
  match originals with
  | .listObj l => .listObj l
  | o => .listObj [o]

/-- Python attribute access `x.position`: succeeds on a port object, raises
`AttributeError` on a list (Python lists have no `position` attribute). -/
def getattrPosition : PyObj → Except String (ℚ × ℚ × ℚ)
  | .portObj pos => .ok pos
  | .listObj _ => .error "AttributeError"

/-- `AggregationPort.calc_position`: `return self.originals.position`. -/
def AggregationPort.calc_position (self_originals : PyObj) :
    Except String (ℚ × ℚ × ℚ) :=
  getattrPosition self_originals

/-! ### Element graphs, `get_edge_ports_of_strait` and `PipeStrand.__init__` -/

/-- A port of a graph element, as needed for edge-port extraction:
`connectedParent` is the guid of the parent element of the connected port,
`none` when `port.connection` is falsy. -/
structure GPort where
  guid : Nat
  connectedParent : Option Nat
  deriving DecidableEq

/-- An element, i.e. a node of an element graph. -/
structure GElement where
  guid : Nat
  ports : List GPort
  deriving DecidableEq

/-- An element graph (a match handed to an aggregation constructor): its
node list.  Adjacency is induced by the port connections. -/
structure ElementGraph where
  nodes : List GElement
  deriving DecidableEq

/-- Modelled from the spec: the networkx degree of a node of the element
graph.  `hvac_graph.py` itself is not among the sources; per the spec the
element graph is an undirected ConnectionGraph whose node set is the
components and whose "edge set = realized connections", so the degree of
`v` is the number of other graph nodes that `v` is connected to through at
least one port connection. -/
def ElementGraph.degree (g : ElementGraph) (v : GElement) : Nat :=
  (g.nodes.filter (fun u =>
    u.guid != v.guid && v.ports.any (fun p => p.connectedParent == some u.guid))).length

/-- The guids of the graph nodes (membership test `in graph.nodes`). -/
def ElementGraph.nodeGuids (g : ElementGraph) : List Nat :=
  g.nodes.map GElement.guid

/-- `edge_elements` in `Aggregation.get_edge_ports_of_strait`: the nodes of
degree 1. -/
def straitEdgeElements (g : ElementGraph) : List GElement :=
  g.nodes.filter (fun v => g.degree v == 1)

/-- The ports collected by `Aggregation.get_edge_ports_of_strait`: ports of
the degree-1 elements that have a connection whose parent lies outside the
graph (unconnected ports are skipped by `continue`). -/
def straitEdgePorts (g : ElementGraph) : List GPort :=
  ((straitEdgeElements g).flatMap GElement.ports).filter (fun p =>
    match p.connectedParent with
    | none => false
    | some parent => !(g.nodeGuids.contains parent))

/-- `Aggregation.get_edge_ports_of_strait`: raises `AttributeError`
("Graph elements are not connected strait") unless exactly two nodes have
degree 1, then raises `AttributeError` ("Graph elements are not only
(2 port) pipes") if more than two ports of those end elements connect
outside the graph, and otherwise returns the collected edge ports. -/
def Aggregation.get_edge_ports_of_strait (g : ElementGraph) :
    Except String (List GPort) :=
  if (straitEdgeElements g).length ≠ 2 then
    .error "Graph elements are not connected strait"
  else if (straitEdgePorts g).length > 2 then
    .error "Graph elements are not only (2 port) pipes"
  else
    .ok (straitEdgePorts g)

/-- The `aggregation` back-references: element guid ↦ guid of the aggregate
stored by `model.aggregation = self` (if any). -/
abbrev AggState := Nat → Option Nat

/-- One assignment `model.aggregation = self`. -/
def setAggregation (st : AggState) (elemGuid aggGuid : Nat) : AggState :=
  fun k => if k = elemGuid then some aggGuid else st k

/-- `Aggregation.__init__`: stores the graph nodes as `self.elements` and
sets `model.aggregation = self` on every one of them.  This runs before any
subclass validation. -/
def Aggregation.init (aggGuid : Nat) (g : ElementGraph) (st : AggState) : AggState :=
  g.nodes.foldl (fun s v => setAggregation s v.guid aggGuid) st

/-- `PipeStrand.__init__` (the length/diameter kwargs aside): first
`super().__init__` marks every member element, then the graph is validated
through `get_edge_ports` (= `get_edge_ports_of_strait`), which may raise;
on success the edge ports get aggregation ports.  The first component is
the outcome (`error` = raised exception, `ok` = the edge ports of the new
aggregate), the second the `aggregation` store after the call, raised or
not. -/
def PipeStrand.init (aggGuid : Nat) (g : ElementGraph) (st : AggState) :
    Except String (List GPort) × AggState :=
  (Aggregation.get_edge_ports_of_strait g, Aggregation.init aggGuid g st)

/-- A star-shaped element graph (a 3-port distributor with three attached
leaves): the distributor has degree 3 and each leaf degree 1, so the graph
is not a single straight chain. -/
def starCenter : GElement :=
  { guid := 0
    ports := [{ guid := 20, connectedParent := some 1 },
              { guid := 21, connectedParent := some 2 },
              { guid := 22, connectedParent := some 3 }] }

/-- A leaf of the star graph, connected back to the distributor. -/
def starLeaf (i : Nat) : GElement :=
  { guid := i, ports := [{ guid := 10 + i, connectedParent := some 0 }] }

/-- The star element graph. -/
def starGraph : ElementGraph :=
  { nodes := [starCenter, starLeaf 1, starLeaf 2, starLeaf 3] }

/-! ### `UnderfloorHeating.check_conditions` and `find_matches`

All coordinates and derived quantities are in the project's IFC length unit
(the `length_unit` factors of the source cancel out; in the shipped models
the unit is millimetres, so the area threshold is `1e6` and the spacing
thresholds are `90` and `210`). -/

/-- A 3-D point: an element or port `position`. -/
structure Pt where
  x : ℚ
  y : ℚ
  z : ℚ
  deriving DecidableEq

/-- A candidate member for the underfloor-heating rule, in the rule's
candidate shape: a pipe-like element with a position and two positioned
ports (`element.ports[0]`, `element.ports[1]`), plus the `length` and
`diameter` attributes read by the final density criterion. -/
structure UHElement where
  position : Pt
  port0 : Pt
  port1 : Pt
  length : ℚ
  diameter : ℚ
  deriving DecidableEq

/-- The metadata dict returned on a successful underfloor-heating match. -/
structure UHMeta where
  length : ℚ
  diameter : ℚ
  heating_area : ℚ
  x_spacing : ℚ
  y_spacing : ℚ
  deriving DecidableEq

/-- Insert a value into a sorted duplicate-free list, keeping it sorted and
duplicate-free. -/
def insertSortedDistinct (q : ℚ) : List ℚ → List ℚ
  | [] => [q]
  | a :: t =>
    if q < a then q :: a :: t
    else if q = a then a :: t
    else a :: insertSortedDistinct q t

/-- `np.unique`: the distinct values of a list, sorted ascending. -/
def uniqueVals (l : List ℚ) : List ℚ :=
  l.foldl (fun acc q => insertSortedDistinct q acc) []

/-- `np.argmax` over the counts of `np.unique(..., return_counts=True)`:
the first (= smallest, since the values are sorted ascending) value with
the maximal count, paired with that count; `none` on an empty array. -/
def argmaxCount : List (ℚ × Nat) → Option (ℚ × Nat)
  | [] => none
  | p :: t => some (t.foldl (fun best c => if c.2 > best.2 then c else best) p)

/-- The z coordinates of all ports of the candidate elements
(`ports_coors[:, 2]`). -/
def portZs (uh_elements : List UHElement) : List ℚ :=
  uh_elements.flatMap (fun e => [e.port0.z, e.port1.z])

/-- The dominant z coordinate with its count:
`np.unique(ports_coors[:, 2], return_counts=True)` followed by `np.argmax`
over the counts. -/
def uhZMax (uh_elements : List UHElement) : Option (ℚ × Nat) :=
  argmaxCount ((uniqueVals (portZs uh_elements)).map
    (fun v => (v, (portZs uh_elements).count v)))

/-- The count criterion of `UnderfloorHeating.check_conditions`:
`len(uh_elements) < 20` fails the match. -/
def uhCountFails (uh_elements : List UHElement) : Bool :=
  uh_elements.length < 20

/-- The in-plane filter of the main loop: both port z coordinates within 1
of the dominant z coordinate. -/
def uhInPlane (uh_elements : List UHElement) (z2 : ℚ) : List UHElement :=
  uh_elements.filter (fun e =>
    decide (|e.port0.z - z2| < 1) && decide (|e.port1.z - z2| < 1))

/-- Elements appended to `y_orientation`: the two port x coordinates differ
by less than 1.  (Filtered from the in-plane elements, in loop order.) -/
def uhYOrientation (inPlane : List UHElement) : List UHElement :=
  inPlane.filter (fun e => decide (|e.port0.x - e.port1.x| < 1))

/-- Elements appended to `x_orientation`: the two port y coordinates differ
by less than 1. -/
def uhXOrientation (inPlane : List UHElement) : List UHElement :=
  inPlane.filter (fun e => decide (|e.port0.y - e.port1.y| < 1))

/-- The `min_x`-style folds of the main loop (`if v < min_x: min_x = v`),
seeded from the first in-plane element (the seed `float("inf")` is beaten
by the first element). -/
def foldMin (f : UHElement → ℚ) (e0 : UHElement) (rest : List UHElement) : ℚ :=
  rest.foldl (fun acc e => min acc (f e)) (f e0)

/-- The `max_x`-style folds of the main loop. -/
def foldMax (f : UHElement → ℚ) (e0 : UHElement) (rest : List UHElement) : ℚ :=
  rest.foldl (fun acc e => max acc (f e)) (f e0)

/-- `heating_area = (max_x - min_x) * (max_y - min_y)` over the in-plane
elements' positions. -/
def uhHeatingArea (e0 : UHElement) (rest : List UHElement) : ℚ :=
  (foldMax (fun e => e.position.x) e0 rest - foldMin (fun e => e.position.x) e0 rest)
    * (foldMax (fun e => e.position.y) e0 rest - foldMin (fun e => e.position.y) e0 rest)

/-- `x_spacing`/`y_spacing` as optionally-assigned local variables: the
variable stays unassigned (`none`) when the orientation count is exactly 1,
because `len(...) - 1 != 0` guards the assignment
`spacing = (hi - lo) / (len(...) - 1)`. -/
def uhSpacing (lo hi : ℚ) (n : Nat) : Option ℚ :=
  if (n : ℤ) - 1 ≠ 0 then some ((hi - lo) / ((n : ℚ) - 1)) else none

/-- Evaluation of `not ((90 < x_spacing < 210) or (90 < y_spacing < 210))`:
Python's chained comparison evaluates `x_spacing` first and raises
`UnboundLocalError` when it was never assigned; the `or` short-circuits, so
`y_spacing` is only evaluated (and can only raise) when the first chain is
false. -/
def uhSpacingPasses : Option ℚ → Option ℚ → Except String Bool
  | none, _ => .error "UnboundLocalError: x_spacing"
  | some xv, ys =>
      if 90 < xv ∧ xv < 210 then .ok true
      else
        match ys with
        | none => .error "UnboundLocalError: y_spacing"
        | some yv => .ok (decide (90 < yv ∧ yv < 210))

/-- `total_length = sum(segment.length for segment in uh_elements)` (over
all candidate elements, not only the in-plane ones). -/
def uhTotalLength (uh_elements : List UHElement) : ℚ :=
  (uh_elements.map UHElement.length).sum

/-- `avg_diameter = (sum(d**2 * l) / total_length) ** 0.5`; the square-root
primitive `** 0.5` is taken as the parameter `sqrtQ`. -/
def uhAvgDiameter (sqrtQ : ℚ → ℚ) (uh_elements : List UHElement) : ℚ :=
  sqrtQ ((uh_elements.map (fun e => e.diameter ^ 2 * e.length)).sum
    / uhTotalLength uh_elements)

/-- `kpi_criteria = (total_length * avg_diameter) / heating_area`. -/
def uhKpi (sqrtQ : ℚ → ℚ) (uh_elements : List UHElement) (heating_area : ℚ) : ℚ :=
  uhTotalLength uh_elements * uhAvgDiameter sqrtQ uh_elements / heating_area

/-- The tail of `check_conditions` from the spacing criterion on: the
spacing check (which can raise `UnboundLocalError`), the `ZeroDivisionError`
of `avg_diameter` when the total length is 0, the final density criterion
`0.09 > kpi_criteria > 0.01`, and the metadata dict, whose construction
reads both spacing variables again and raises `UnboundLocalError` when one
of them is still unassigned. -/
def uhAfterArea (sqrtQ : ℚ → ℚ) (uh_elements : List UHElement)
    (heating_area : ℚ) (xs ys : Option ℚ) : Except String (Option UHMeta) :=
  match uhSpacingPasses xs ys with
  | .error e => .error e
  | .ok passes =>
      if !passes then .ok none
      else if uhTotalLength uh_elements = 0 then .error "ZeroDivisionError"
      else if 9 / 100 > uhKpi sqrtQ uh_elements heating_area
              ∧ uhKpi sqrtQ uh_elements heating_area > 1 / 100 then
        match xs, ys with
        | some xv, some yv =>
            .ok (some { length := uhTotalLength uh_elements
                        diameter := uhAvgDiameter sqrtQ uh_elements
                        heating_area := heating_area
                        x_spacing := xv
                        y_spacing := yv })
        | none, _ => .error "UnboundLocalError: x_spacing"
        | some _, none => .error "UnboundLocalError: y_spacing"
      else
        .ok none

/-- `UnderfloorHeating.check_conditions` (kernel/aggregation.py lines
265-361), for candidates in the rule's shape (two positioned ports per
element).  Stages, in source order: the `len < 20` count criterion; the
80% z-plane criterion over all port z coordinates; the in-plane bounding
box and orientation counts; the `heating_area < 1e6` criterion; then
`uhAfterArea` (spacing, density, metadata).  When no element passes the
in-plane filter the source's `float("inf")` seeds survive the folds,
`heating_area` evaluates to `+inf` (which passes the area check) and both
spacings evaluate to `+inf` (assigned, since the counts are 0), so the
spacing criterion fails and the function returns `None`: that branch is
written out directly. -/
def UnderfloorHeating.check_conditions (sqrtQ : ℚ → ℚ)
    (uh_elements : List UHElement) : Except String (Option UHMeta) :=
  if uhCountFails uh_elements then .ok none
  else
    match uhZMax uh_elements with
    | none => .error "IndexError"
    | some zc =>
        if (zc.2 : ℚ) / ((portZs uh_elements).length : ℚ) < 4 / 5 then .ok none
        else
          match uhInPlane uh_elements zc.1 with
          | [] => .ok none
          | e0 :: rest =>
              if uhHeatingArea e0 rest < 10 ^ 6 then .ok none
              else
                uhAfterArea sqrtQ uh_elements (uhHeatingArea e0 rest)
                  (uhSpacing (foldMin (fun e => e.position.x) e0 rest)
                    (foldMax (fun e => e.position.x) e0 rest)
                    (uhYOrientation (e0 :: rest)).length)
                  (uhSpacing (foldMin (fun e => e.position.y) e0 rest)
                    (foldMax (fun e => e.position.y) e0 rest)
                    (uhXOrientation (e0 :: rest)).length)

/-- The filtering loop of `UnderfloorHeating.find_matches`: the chain
candidates come from `HvacGraph.get_type_chains` (whose module is not among
the sources), so they are taken as input; a candidate is kept iff
`check_conditions` returns a (truthy, always five-entry) meta dict; an
exception raised by `check_conditions` propagates out of the loop. -/
def UnderfloorHeating.find_matches (sqrtQ : ℚ → ℚ) :
    List (List UHElement) → Except String (List (List UHElement) × List UHMeta)
  | [] => .ok ([], [])
  | g :: rest =>
      match UnderfloorHeating.check_conditions sqrtQ g with
      | .error e => .error e
      | .ok meta =>
          match UnderfloorHeating.find_matches sqrtQ rest with
          | .error e => .error e
          | .ok p =>
              match meta with
              | some m => .ok (g :: p.1, m :: p.2)
              | none => .ok (p.1, p.2)

/-- Constant stand-in for the opaque `** 0.5` primitive, used by the
concrete examples (chosen so that the density criterion passes on
`uhGrid`). -/
def sqrtC : ℚ → ℚ := fun _ => 20

/-- A 20-pipe horizontal grid: 20 parallel y-oriented runs 150 units apart
(x = 0, 150, …, 2850), all ports at z = 0, each pipe of length 100 and
diameter 20, element positions spread over the grid. -/
def uhGrid : List UHElement :=
  (List.range 20).map fun i =>
    { position := { x := 150 * (i : ℚ), y := 50 * (i : ℚ), z := 0 }
      port0 := { x := 150 * (i : ℚ), y := 0, z := 0 }
      port1 := { x := 150 * (i : ℚ), y := 1000, z := 0 }
      length := 100
      diameter := 20 }

/-- The metadata `check_conditions` computes for `uhGrid` (with `sqrtC` for
`** 0.5`): total length 2000, x spacing 2850/19 = 150, y spacing
950/(0-1) = -950, bounding-box area 2850 · 950. -/
def uhGridMeta : UHMeta :=
  { length := 2000, diameter := 20, heating_area := 2707500
    x_spacing := 150, y_spacing := -950 }

/-- A diagonal element (neither x- nor y-oriented) used by the C6 failing
input. -/
def diagElement (p : Pt) : UHElement :=
  { position := p
    port0 := { x := 0, y := 0, z := 0 }
    port1 := { x := 1000, y := 1000, z := 0 }
    length := 100
    diameter := 20 }

/-- A failing input for `check_conditions` in the rule's candidate shape:
20 elements, all ports at z = 0 (z criterion passes), element positions
spanning a 2000 × 2000 bounding box (area criterion passes), but exactly
one y-oriented and one x-oriented element, so both orientation counts are 1,
neither `x_spacing` nor `y_spacing` is ever assigned, and the spacing check
raises `UnboundLocalError`. -/
def uhBugInput : List UHElement :=
  [diagElement { x := 0, y := 0, z := 0 },
   diagElement { x := 2000, y := 2000, z := 0 }]
  ++ (List.range 16).map (fun _ => diagElement { x := 500, y := 500, z := 0 })
  ++ [{ position := { x := 10, y := 10, z := 0 }
        port0 := { x := 0, y := 0, z := 0 }
        port1 := { x := 0, y := 1000, z := 0 }
        length := 100, diameter := 20 },
      { position := { x := 20, y := 20, z := 0 }
        port0 := { x := 0, y := 0, z := 0 }
        port1 := { x := 1000, y := 0, z := 0 }
        length := 100, diameter := 20 }]

end Bim2sim

namespace Bim2sim

/-! ### Helper lemmas -/

/-- Fold characterization for `PipeStrand._calc_avg`: the loop adds, to each
running total, the corresponding sum over the members it keeps. -/
theorem psFold (elements : List PipeElement) (s : PSState) :
    (elements.foldl psStep s).total_length
      = s.total_length + ((psIncluded elements).map (fun e => e.length.getD 0)).sum ∧
    (elements.foldl psStep s).diameter_times_length
      = s.diameter_times_length
          + ((psIncluded elements).map (fun e => e.diameter.getD 0 * e.length.getD 0)).sum := by
  induction elements generalizing s with
  | nil => simp [psIncluded]
  | cons e t ih =>
    by_cases h : (truthy e.length && truthy e.diameter) = true
    · have h1 : (psStep s e).total_length = s.total_length + e.length.getD 0 := by
        simp [psStep, h]
      have h2 : (psStep s e).diameter_times_length
          = s.diameter_times_length + e.diameter.getD 0 * e.length.getD 0 := by
        simp [psStep, h]
      have ht := ih (psStep s e)
      rw [h1, h2] at ht
      simp only [List.foldl_cons]
      rw [ht.1, ht.2]
      simp only [psIncluded, List.filter_cons, h, if_true, List.map_cons, List.sum_cons]
      constructor <;> ring
    · have hs : psStep s e = s := by simp [psStep, h]
      have ht := ih s
      simp only [List.foldl_cons, hs]
      rw [ht.1, ht.2]
      simp [psIncluded, List.filter_cons, h]

/-- C2: For every PipeStrand aggregate, the `length` computed by `_calc_avg`
equals the sum of the lengths of the members that have both a truthy length
and a truthy diameter; members missing either contribute nothing. -/
theorem pipestrand_length_is_sum (elements : List PipeElement) :
    (PipeStrand.calc_avg elements).length
      = ((psIncluded elements).map (fun e => e.length.getD 0)).sum := by
  have h := psFold elements { total_length := 0, diameter_times_length := 0 }
  simp [PipeStrand.calc_avg, h.1]

/-- C3: For every PipeStrand aggregate, the `diameter` computed by `_calc_avg`
is the length-weighted average Σ(length·diameter)/Σ length over the members
with truthy length and diameter (members missing either are excluded from both
sums), and it is 0 when the denominator sum is 0. -/
theorem pipestrand_diameter_weighted_avg (elements : List PipeElement) :
    (PipeStrand.calc_avg elements).diameter
      = (if ((psIncluded elements).map (fun e => e.length.getD 0)).sum = 0 then 0
         else ((psIncluded elements).map (fun e => e.diameter.getD 0 * e.length.getD 0)).sum
              / ((psIncluded elements).map (fun e => e.length.getD 0)).sum) := by
  have h := psFold elements { total_length := 0, diameter_times_length := 0 }
  simp only [PipeStrand.calc_avg, h.1, h.2, zero_add]
  by_cases hS : ((psIncluded elements).map (fun e => e.length.getD 0)).sum = 0
  · simp [hS]
  · simp [hS]

/-- The strand branch of `ppStep` leaves the pump-related state components
unchanged. -/
theorem ppStep_strand_proj (s : PPState) (l d : Option (Option ℚ)) :
    (ppStep s (.strand l d)).total_rated_power = s.total_rated_power ∧
    (ppStep s (.strand l d)).total_rated_volume_flow = s.total_rated_volume_flow ∧
    (ppStep s (.strand l d)).max_rated_height = s.max_rated_height := by
  rcases d with _ | dval <;> rcases l with _ | lval <;> simp [ppStep]
  split <;> simp

/-- Fold characterization for the kernel `ParallelPump._calc_avg`: rated power
and volume flow are summed over the pump members, and `max_rated_height` is
the `hstep`-fold over the pump heights. -/
theorem ppFold (items : List PumpItem) (s : PPState) :
    (items.foldl ppStep s).total_rated_power = s.total_rated_power + (pumpPowers items).sum ∧
    (items.foldl ppStep s).total_rated_volume_flow
      = s.total_rated_volume_flow + (pumpVolumeFlows items).sum ∧
    (items.foldl ppStep s).max_rated_height = hfold s.max_rated_height (pumpHeights items) := by
  induction items generalizing s with
  | nil => simp [pumpPowers, pumpVolumeFlows, pumpHeights, hfold]
  | cons i t ih =>
    cases i with
    | pump rvf rp rh d =>
      have h1 : (ppStep s (.pump rvf rp rh d)).total_rated_power
          = s.total_rated_power + rp := by simp [ppStep]
      have h2 : (ppStep s (.pump rvf rp rh d)).total_rated_volume_flow
          = s.total_rated_volume_flow + rvf := by simp [ppStep]
      have h3 : (ppStep s (.pump rvf rp rh d)).max_rated_height
          = hstep s.max_rated_height rh := by simp [ppStep, hstep]
      have ht := ih (ppStep s (.pump rvf rp rh d))
      rw [h1, h2, h3] at ht
      simp only [List.foldl_cons]
      rw [ht.1, ht.2.1, ht.2.2]
      refine ⟨?_, ?_, ?_⟩
      · simp only [pumpPowers, List.filterMap_cons, List.sum_cons]
        ring
      · simp only [pumpVolumeFlows, List.filterMap_cons, List.sum_cons]
        ring
      · simp only [pumpHeights, List.filterMap_cons, hfold]
    | strand l d =>
      have hproj := ppStep_strand_proj s l d
      have ht := ih (ppStep s (.strand l d))
      rw [hproj.1, hproj.2.1, hproj.2.2] at ht
      simp only [List.foldl_cons]
      rw [ht.1, ht.2.1, ht.2.2]
      simp [pumpPowers, pumpVolumeFlows, pumpHeights, List.filterMap_cons]

/-- For a positive start and positive heights, `hfold` computes the minimum:
the result is the start or one of the heights, and is a lower bound. -/
theorem hfold_pos (l : List ℚ) (m : ℚ) (hm : 0 < m) (hl : ∀ x ∈ l, 0 < x) :
    (hfold m l = m ∨ hfold m l ∈ l) ∧ hfold m l ≤ m ∧ ∀ x ∈ l, hfold m l ≤ x := by
  induction l generalizing m with
  | nil => simp [hfold]
  | cons h t ih =>
    have hh : 0 < h := hl h (by simp)
    have hm' : hstep m h = if h < m then h else m := by
      simp [hstep, ne_of_gt hm]
    have hpos' : 0 < hstep m h := by
      rw [hm']; split <;> assumption
    have hle_m : hstep m h ≤ m := by
      rw [hm']; split <;> [exact le_of_lt (by assumption); exact le_refl m]
    have hle_h : hstep m h ≤ h := by
      rw [hm']; split
      · exact le_refl h
      · exact le_of_not_lt (by assumption)
    have iht := ih (hstep m h) hpos' (fun x hx => hl x (by simp [hx]))
    refine ⟨?_, ?_, ?_⟩
    · rcases iht.1 with heq | hmem
      · rw [hfold, heq, hm']
        split
        · exact Or.inr (by simp)
        · exact Or.inl rfl
      · exact Or.inr (by simp [hfold, hmem])
    · calc hfold m (h :: t) = hfold (hstep m h) t := by rw [hfold]
        _ ≤ hstep m h := iht.2.1
        _ ≤ m := hle_m
    · intro x hx
      rcases List.mem_cons.mp hx with rfl | hxt
      · calc hfold m (x :: t) = hfold (hstep m x) t := by rw [hfold]
          _ ≤ hstep m x := iht.2.1
          _ ≤ x := hle_h
      · simpa [hfold] using iht.2.2 x hxt

/-- C1 counterexample: on the spec's own example (two parallel pumps with
rated_power 5 each, heights 12 and 10, flows 8 and 8) the kernel
`ParallelPump._calc_avg` yields combined flow 16 and combined height 10, but
its `rated_power` (= 5 + 5 = 10) is not
`combined_volume_flow × combined_height × 9.81 × 1000`. -/
theorem parallelpump_power_formula_counterexample :
    (ParallelPump.calc_avg c1Pumps).rated_volume_flow = 16 ∧
    (ParallelPump.calc_avg c1Pumps).rated_height = 10 ∧
    (ParallelPump.calc_avg c1Pumps).rated_power = 10 ∧
    ¬ (ParallelPump.calc_avg c1Pumps).rated_power
        = (ParallelPump.calc_avg c1Pumps).rated_volume_flow
          * (ParallelPump.calc_avg c1Pumps).rated_height * (981 / 100) * 1000 := by
  refine ⟨by with_unfolding_all rfl, by with_unfolding_all rfl, by with_unfolding_all rfl, ?_⟩
  with_unfolding_all decide

/-- C1 (amended): for every ParallelPump aggregate the kernel `_calc_avg`
computes `rated_power` as the sum of the member pumps' `rated_power`,
`rated_volume_flow` as the sum of the member pumps' `rated_volume_flow`, and
`rated_height` as the minimum of the member pumps' `rated_height` (for at
least one pump, all with positive rated height). -/
theorem parallelpump_calc_avg_characterization (items : List PumpItem)
    (hne : pumpHeights items ≠ [])
    (hpos : ∀ x ∈ pumpHeights items, 0 < x) :
    (ParallelPump.calc_avg items).rated_power = (pumpPowers items).sum ∧
    (ParallelPump.calc_avg items).rated_volume_flow = (pumpVolumeFlows items).sum ∧
    (ParallelPump.calc_avg items).rated_height ∈ pumpHeights items ∧
    ∀ x ∈ pumpHeights items, (ParallelPump.calc_avg items).rated_height ≤ x := by
  have h := ppFold items
    { max_rated_height := 0, total_rated_volume_flow := 0, total_diameter_sq := 0
      total_length := 0, diameter_times_length := 0, total_rated_power := 0 }
  have hh : (ParallelPump.calc_avg items).rated_height = hfold 0 (pumpHeights items) := by
    simp [ParallelPump.calc_avg, h.2.2]
  rcases hhd : pumpHeights items with _ | ⟨h0, t⟩
  · exact absurd hhd hne
  · rw [hhd] at hh
    have h0pos : 0 < h0 := hpos h0 (by rw [hhd]; simp)
    have htpos : ∀ x ∈ t, 0 < x := fun x hx => hpos x (by rw [hhd]; simp [hx])
    have hstart : hfold 0 (h0 :: t) = hfold h0 t := by simp [hfold, hstep]
    have key := hfold_pos t h0 h0pos htpos
    refine ⟨by simp [ParallelPump.calc_avg, h.1], by simp [ParallelPump.calc_avg, h.2.1], ?_, ?_⟩
    · rw [hh, hstart]
      rcases key.1 with heq | hmem
      · simp [heq]
      · simp [hmem]
    · intro x hx
      rw [hh, hstart]
      rcases List.mem_cons.mp hx with rfl | hxt
      · exact key.2.1
      · exact key.2.2 x hxt

/-- Witness for C1 (amended) at the spec's two-pump example. -/
theorem parallelpump_calc_avg_characterization_witness :
    (ParallelPump.calc_avg c1Pumps).rated_power = (pumpPowers c1Pumps).sum ∧
    (ParallelPump.calc_avg c1Pumps).rated_volume_flow = (pumpVolumeFlows c1Pumps).sum ∧
    (ParallelPump.calc_avg c1Pumps).rated_height ∈ pumpHeights c1Pumps ∧
    ∀ x ∈ pumpHeights c1Pumps, (ParallelPump.calc_avg c1Pumps).rated_height ≤ x :=
  parallelpump_calc_avg_characterization c1Pumps (by with_unfolding_all decide)
    (by
      have h : pumpHeights c1Pumps = [12, 10] := by with_unfolding_all rfl
      rw [h]
      intro x hx
      rcases List.mem_cons.mp hx with rfl | hx
      · norm_num
      rcases List.mem_cons.mp hx with rfl | hx
      · norm_num
      · simp at hx)

/-- The match loop skips a match whose construction raises, without touching
the graph for it: the run is the same as if the failing match were absent. -/
theorem applyMatches_skip {M G A : Type} (construct : M → Except String A)
    (merge : G → A → G) (g : G) (i : Nat) (pre post : List M) (m : M) (e : String)
    (h : construct m = .error e) :
    applyMatches construct merge g i (pre ++ m :: post)
      = applyMatches construct merge g i (pre ++ post) := by
  induction pre generalizing g i with
  | nil => simp [applyMatches, h]
  | cons p t ih =>
    simp only [List.cons_append, applyMatches]
    cases hc : construct p with
    | error e2 => exact ih _ _
    | ok a => exact ih _ _

/-- C5: in the reduction driver, a match whose aggregate construction raises
is caught and logged, `graph.merge` is not called for it, and the run
continues with the remaining matches of that rule and the remaining rules:
the whole run equals the run on the same rule list with the failing match
removed (in particular it never aborts). -/
theorem reduce_run_skips_failed_match {M G A : Type} (merge : G → A → G) (g : G)
    (rules1 rules2 : List (AggRule M A)) (c : M → Except String A)
    (pre post : List M) (m : M) (e : String) (hc : c m = .error e) :
    reduceRun merge g (rules1 ++ { construct := c, matchList := pre ++ m :: post } :: rules2)
      = reduceRun merge g (rules1 ++ { construct := c, matchList := pre ++ post } :: rules2) := by
  induction rules1 generalizing g with
  | nil =>
    simp only [List.nil_append, reduceRun]
    rw [applyMatches_skip c merge g 0 pre post m e hc]
  | cons r rs ih =>
    simp only [List.cons_append, reduceRun, List.append_eq]
    rw [ih]

/-- Witness for C5: a failing match (match `0` of the single rule) is
skipped and the reduction result equals the run without it. -/
theorem reduce_run_skips_failed_match_witness :
    reduceRun exMerge 0 [{ construct := exConstruct, matchList := [1, 0, 2] }]
      = reduceRun exMerge 0 [{ construct := exConstruct, matchList := [1, 2] }] :=
  reduce_run_skips_failed_match exMerge 0 [] [] exConstruct [1] [2] 0
    "Instantiation failed" (by rfl)

/-- C10: every `AggregationPort` stores its `originals` as a list (a single
original is wrapped into a one-element list), and consequently
`AggregationPort.calc_position`, which reads `self.originals.position`,
raises `AttributeError` for every `AggregationPort` instead of returning a
position. -/
theorem aggregationport_calc_position_always_raises (o : PyObj) :
    (∃ l, AggregationPort.initOriginals o = .listObj l) ∧
    AggregationPort.calc_position (AggregationPort.initOriginals o)
      = .error "AttributeError" := by
  cases o with
  | portObj pos => exact ⟨⟨_, rfl⟩, rfl⟩
  | listObj l => exact ⟨⟨_, rfl⟩, rfl⟩

/-- C4: constructing a `PipeStrand` on an element graph that is not a single
straight chain — the number of degree-1 nodes differs from 2, or more than
two ports of the end elements connect outside the graph — raises an
exception instead of returning an aggregate. -/
theorem pipestrand_init_rejects_non_strait (aggGuid : Nat) (g : ElementGraph)
    (st : AggState)
    (h : (straitEdgeElements g).length ≠ 2 ∨ 2 < (straitEdgePorts g).length) :
    ∃ e, (PipeStrand.init aggGuid g st).1 = Except.error e := by
  unfold PipeStrand.init Aggregation.get_edge_ports_of_strait
  rcases h with h | h
  · exact ⟨"Graph elements are not connected strait", by simp [h]⟩
  · by_cases h2 : (straitEdgeElements g).length ≠ 2
    · exact ⟨"Graph elements are not connected strait", by simp [h2]⟩
    · exact ⟨"Graph elements are not only (2 port) pipes", by simp [h2, h]⟩

/-- Witness for C4 at the star graph (3 degree-1 leaves around a
distributor). -/
theorem pipestrand_init_rejects_non_strait_witness :
    ∃ e, (PipeStrand.init 7 starGraph (fun _ => none)).1 = Except.error e :=
  pipestrand_init_rejects_non_strait 7 starGraph (fun _ => none)
    (Or.inl (by decide))

/-- Writing the same aggregate guid everywhere preserves an existing mark. -/
theorem foldl_mark_preserve (l : List GElement) (st : AggState) (a k : Nat)
    (hk : st k = some a) :
    (l.foldl (fun s u => setAggregation s u.guid a) st) k = some a := by
  induction l generalizing st with
  | nil => exact hk
  | cons u t ih =>
    simp only [List.foldl_cons]
    apply ih
    unfold setAggregation
    split
    · rfl
    · exact hk

/-- After `Aggregation.__init__`, every node of the graph is marked with the
aggregate's guid. -/
theorem foldl_mark_mem (l : List GElement) (st : AggState) (a : Nat) :
    ∀ v ∈ l, (l.foldl (fun s u => setAggregation s u.guid a) st) v.guid = some a := by
  induction l generalizing st with
  | nil => intro v hv; simp at hv
  | cons u t ih =>
    intro v hv
    rcases List.mem_cons.mp hv with rfl | hvt
    · simp only [List.foldl_cons]
      apply foldl_mark_preserve
      simp [setAggregation]
    · simp only [List.foldl_cons]
      exact ih _ v hvt

/-- C9: aggregate construction is not atomic on error.
`Aggregation.__init__` sets `model.aggregation = self` on every node of the
matched subgraph before edge-port validation runs, so when
`PipeStrand.__init__` subsequently raises (e.g. on a non-straight graph)
every element of the rejected match is left pointing at the discarded
aggregate. -/
theorem aggregation_marks_members_before_validation (aggGuid : Nat)
    (g : ElementGraph) (st : AggState) (e : String)
    (h : Aggregation.get_edge_ports_of_strait g = Except.error e) :
    (PipeStrand.init aggGuid g st).1 = Except.error e ∧
    ∀ v ∈ g.nodes, (PipeStrand.init aggGuid g st).2 v.guid = some aggGuid := by
  refine ⟨h, ?_⟩
  intro v hv
  exact foldl_mark_mem g.nodes st aggGuid v hv

/-- Witness for C9 at the star graph: the constructor raises, yet the
distributor (guid 0) is left marked with the discarded aggregate's guid 7. -/
theorem aggregation_marks_members_before_validation_witness :
    (PipeStrand.init 7 starGraph (fun _ => none)).1
      = Except.error "Graph elements are not connected strait" ∧
    (PipeStrand.init 7 starGraph (fun _ => none)).2 0 = some 7 := by
  have h := aggregation_marks_members_before_validation 7 starGraph (fun _ => none)
    "Graph elements are not connected strait" (by with_unfolding_all rfl)
  exact ⟨h.1, h.2 starCenter (by simp [starGraph])⟩

set_option maxRecDepth 8000 in
/-- C6 (the code violates it): on `uhBugInput` — 20 elements in the rule's
candidate shape, two positioned ports each — `check_conditions` raises
`UnboundLocalError` (`x_spacing` referenced before assignment) instead of
returning a metadata dict or `None`. -/
theorem uh_check_conditions_raises_on_bug_input :
    UnderfloorHeating.check_conditions sqrtC uhBugInput
      = .error "UnboundLocalError: x_spacing" := by
  with_unfolding_all rfl

/-- A successful `uhAfterArea` outcome implies one of the two spacing values
stored in the metadata lies strictly between 90 and 210. -/
theorem uhAfterArea_spacing (sq : ℚ → ℚ) (es : List UHElement) (area : ℚ)
    (xs ys : Option ℚ) (meta : UHMeta)
    (h : uhAfterArea sq es area xs ys = .ok (some meta)) :
    (90 < meta.x_spacing ∧ meta.x_spacing < 210) ∨
    (90 < meta.y_spacing ∧ meta.y_spacing < 210) := by
  cases xs with
  | none => simp [uhAfterArea, uhSpacingPasses] at h
  | some xv =>
    cases ys with
    | none =>
      by_cases hx : 90 < xv ∧ xv < 210
      · simp only [uhAfterArea, uhSpacingPasses, if_pos hx] at h
        split at h
        · exact absurd h (by simp)
        · split at h
          · exact absurd h (by simp)
          · split at h
            · exact absurd h (by simp)
            · exact absurd h (by simp)
      · simp [uhAfterArea, uhSpacingPasses, if_neg hx] at h
    | some yv =>
      by_cases hx : 90 < xv ∧ xv < 210
      · simp only [uhAfterArea, uhSpacingPasses, if_pos hx] at h
        split at h
        · exact absurd h (by simp)
        · split at h
          · exact absurd h (by simp)
          · split at h
            · simp only [Except.ok.injEq, Option.some.injEq] at h
              subst h
              exact Or.inl hx
            · exact absurd h (by simp)
      · by_cases hy : 90 < yv ∧ yv < 210
        · simp only [uhAfterArea, uhSpacingPasses, if_neg hx, hy, and_self] at h
          split at h
          · exact absurd h (by simp)
          · split at h
            · exact absurd h (by simp)
            · split at h
              · simp only [Except.ok.injEq, Option.some.injEq] at h
                subst h
                exact Or.inr hy
              · exact absurd h (by simp)
        · simp [uhAfterArea, uhSpacingPasses, if_neg hx, hy] at h

/-- C7: `UnderfloorHeating.check_conditions` accepts a candidate only if the
spacing between parallel runs (bounding-box extent divided by the
orientation count, as stored in the returned metadata) falls within
[90, 210]; candidates whose spacings lie outside this interval return no
match. -/
theorem uh_match_spacing_within_bounds (sq : ℚ → ℚ) (es : List UHElement)
    (meta : UHMeta)
    (h : UnderfloorHeating.check_conditions sq es = .ok (some meta)) :
    (90 ≤ meta.x_spacing ∧ meta.x_spacing ≤ 210) ∨
    (90 ≤ meta.y_spacing ∧ meta.y_spacing ≤ 210) := by
  unfold UnderfloorHeating.check_conditions at h
  split at h
  · exact absurd h (by simp)
  · split at h
    · exact absurd h (by simp)
    · split at h
      · exact absurd h (by simp)
      · split at h
        · exact absurd h (by simp)
        · split at h
          · exact absurd h (by simp)
          · rcases uhAfterArea_spacing _ _ _ _ _ _ h with hx | hy
            · exact Or.inl ⟨le_of_lt hx.1, le_of_lt hx.2⟩
            · exact Or.inr ⟨le_of_lt hy.1, le_of_lt hy.2⟩

set_option maxRecDepth 8000 in
/-- Witness for C7 at the 20-pipe grid `uhGrid`, which `check_conditions`
accepts with x spacing 150. -/
theorem uh_match_spacing_within_bounds_witness :
    (90 ≤ uhGridMeta.x_spacing ∧ uhGridMeta.x_spacing ≤ 210) ∨
    (90 ≤ uhGridMeta.y_spacing ∧ uhGridMeta.y_spacing ≤ 210) :=
  uh_match_spacing_within_bounds sqrtC uhGrid uhGridMeta
    (by with_unfolding_all rfl)

/-- Every candidate emitted by `find_matches` passed `check_conditions` with
a metadata dict. -/
theorem find_matches_sound (sq : ℚ → ℚ) (cands : List (List UHElement)) :
    ∀ out, UnderfloorHeating.find_matches sq cands = .ok out →
      ∀ g ∈ out.1, ∃ m, UnderfloorHeating.check_conditions sq g = .ok (some m) := by
  induction cands with
  | nil =>
    intro out h g hg
    simp only [UnderfloorHeating.find_matches, Except.ok.injEq] at h
    subst h
    simp at hg
  | cons c rest ih =>
    intro out h g hg
    simp only [UnderfloorHeating.find_matches] at h
    cases hc : UnderfloorHeating.check_conditions sq c with
    | error e => rw [hc] at h; exact absurd h (by simp)
    | ok meta =>
      rw [hc] at h
      cases hr : UnderfloorHeating.find_matches sq rest with
      | error e => rw [hr] at h; exact absurd h (by simp)
      | ok p =>
        rw [hr] at h
        cases meta with
        | some m =>
          simp only [Except.ok.injEq] at h
          subst h
          rcases List.mem_cons.mp hg with rfl | hgp
          · exact ⟨m, hc⟩
          · exact ih p hr g hgp
        | none =>
          simp only [Except.ok.injEq] at h
          subst h
          exact ih p hr g hg

/-- C8: the underfloor-heating rule requires at least 20 members: every
candidate chain with fewer than 20 elements gets `None` from
`check_conditions` and is never emitted by `find_matches`, while a chain of
exactly 20 elements passes the count criterion (`len < 20`). -/
theorem uh_minimum_member_count :
    (∀ (sq : ℚ → ℚ) (es : List UHElement), es.length < 20 →
        UnderfloorHeating.check_conditions sq es = .ok none) ∧
    (∀ (sq : ℚ → ℚ) (cands : List (List UHElement))
        (out : List (List UHElement) × List UHMeta),
        UnderfloorHeating.find_matches sq cands = .ok out →
        ∀ g ∈ out.1, ¬ g.length < 20) ∧
    (∀ es : List UHElement, es.length = 20 → uhCountFails es = false) := by
  refine ⟨?_, ?_, ?_⟩
  · intro sq es hlen
    simp [UnderfloorHeating.check_conditions, uhCountFails, hlen]
  · intro sq cands out hout g hg hlt
    obtain ⟨m, hm⟩ := find_matches_sound sq cands out hout g hg
    have hnone : UnderfloorHeating.check_conditions sq g = .ok none := by
      simp [UnderfloorHeating.check_conditions, uhCountFails, hlt]
    rw [hnone] at hm
    exact absurd hm (by simp)
  · intro es hlen
    simp [uhCountFails, hlen]

set_option maxRecDepth 8000 in
/-- Witness for C8: the 19-pipe prefix of the grid gets `None` from
`check_conditions`, while the full 20-pipe grid passes the count
criterion. -/
theorem uh_minimum_member_count_witness :
    UnderfloorHeating.check_conditions sqrtC (uhGrid.take 19) = .ok none ∧
    uhCountFails uhGrid = false :=
  ⟨uh_minimum_member_count.1 sqrtC (uhGrid.take 19) (by with_unfolding_all decide),
   uh_minimum_member_count.2.2 uhGrid (by with_unfolding_all rfl)⟩

end Bim2sim
